import Mathlib

/-!
Shallow embedding of podqueue (src/main.py): OPML-driven podcast archiver.

Modelling conventions:
* Python strings are Lean `String`; per-character operations go through
  `String.data : List Char`.
* Python dicts with string keys are ordered association lists
  `List (String × PyVal)`; assignment to an existing key replaces the value
  in place (insertion order preserved, as for CPython dicts), assignment to
  a fresh key appends, `pop` removes.
* The filesystem and the log of outgoing HTTP GET requests are an explicit
  `World` state threaded through the functions; `os.makedirs` is recorded in
  `World.dirs` (creation of intermediate parents is not tracked separately).
* HTTP is an oracle `String → HttpResp`; `requests.get` raising a transport
  exception is `HttpResp.transportError`, a response with a non-success
  status (so that `raise_for_status` raises `HTTPError`) is
  `HttpResp.httpError`, and a successful body is `HttpResp.ok bytes`.
* Uncaught Python exceptions are `Except.error (name, world-at-raise)`;
  the exception aborts the whole run because no caller catches anything
  except the specific handlers in the source.
* `feedparser.parse` is an oracle `String → ParsedFeed`; feedparser reports
  network failures and ill-formed XML via the `bozo` flag rather than by
  raising, which the model reflects with `ParsedFeed.bozo`.
* `time.strftime` is applied with the configuration's `time_format`; the
  model fixes the default pattern `%Y-%m-%d` (function `strftimeYMD`).
* `os.path.join a b` is modelled as `a ++ "/" ++ b`, valid for the relative
  POSIX components produced here.
-/

/-- One character of the allowed class of the regex
`[^a-zA-Z0-9\-\_\/\\\.]` used in `ascii_normalise` (main.py line 66):
letters, digits, hyphen, underscore, slash, backslash, dot. -/
def allowedChar (c : Char) : Bool :=
  (('a' ≤ c) && (c ≤ 'z')) || (('A' ≤ c) && (c ≤ 'Z')) ||
  (('0' ≤ c) && (c ≤ '9')) ||
  (c == '-') || (c == '_') || (c == '/') || (c == '\\') || (c == '.')

/-- Replacement performed by `re.sub` for a single character. -/
def normChar (c : Char) : Char :=
  if allowedChar c then c else '_'

/-- `podqueue.ascii_normalise` (main.py lines 64-71):
`re.sub` replaces every character outside the allowed class with an
underscore, character by character. -/
def ascii_normalise (s : String) : String :=
  String.mk (s.data.map normChar)

/-- `'_'.join(text.split(' '))` as used for feed and episode titles
(main.py lines 158, 256): every space becomes an underscore. -/
def joinUnderscore (s : String) : String :=
  String.mk (s.data.map (fun c => if c = ' ' then '_' else c))

/-- `os.path.join` for the relative POSIX components used by the program. -/
def pathJoin (a b : String) : String := a ++ "/" ++ b

/-- Suffix of a character list after its last slash. -/
def basenameL (l : List Char) : List Char :=
  (l.reverse.takeWhile (fun c => c ≠ '/')).reverse

/-- `os.path.split(p)[1]`. -/
def basename (p : String) : String := String.mk (basenameL p.data)

/-- `os.path.splitext(p)[1]`: the extension from the last dot of the last
path component, empty when that component has no dot or only leading dots
before it. -/
def splitextExt (p : String) : String :=
  let b := basenameL p.data
  let tail := b.reverse.takeWhile (fun c => c ≠ '.')
  if tail.length < b.length then
    if (b.take (b.length - tail.length - 1)).any (fun c => c ≠ '.') then
      String.mk (b.drop (b.length - tail.length - 1))
    else ""
  else ""

/-- Does `sub` occur as a contiguous run inside `l`? -/
def containsSub (sub : List Char) : List Char → Bool
  | [] => sub.isPrefixOf []
  | c :: cs => sub.isPrefixOf (c :: cs) || containsSub sub cs

/-- Substring containment, Python's `sub in s` for strings. -/
def strContains (s sub : String) : Bool :=
  containsSub sub.data s.data

/-- The decomposed date produced by feedparser in `published_parsed`
(`time.struct_time`); only the fields used by the default time format are
modelled. -/
structure TimeStruct where
  year : Nat
  month : Nat
  day : Nat
  deriving DecidableEq

/-- Zero-padding to two digits for `%m` / `%d`. -/
def pad2 (n : Nat) : String :=
  if n < 10 then "0" ++ toString n else toString n

/-- Zero-padding to four digits for `%Y`. -/
def pad4 (n : Nat) : String :=
  if n < 10 then "000" ++ toString n
  else if n < 100 then "00" ++ toString n
  else if n < 1000 then "0" ++ toString n
  else toString n

/-- `time.strftime` at the default configured pattern `%Y-%m-%d`
(main.py lines 27, 242). -/
def strftimeYMD (t : TimeStruct) : String :=
  pad4 t.year ++ "-" ++ pad2 t.month ++ "-" ++ pad2 t.day

/-- One element of a feedparser `links` collection: a link object with a
`type` marker and an `href` (main.py lines 247-249 access exactly these
two keys). -/
structure LinkObj where
  type : String
  href : String
  deriving DecidableEq

/-- A Python value as it can occur in the metadata dicts the program
builds: a string, `None`, an int (`episode_count`), a raw time struct, or
the raw `links` collection. -/
inductive PyVal where
  | str (s : String)
  | pyNone
  | int (n : Nat)
  | timeStruct (t : TimeStruct)
  | linkList (ls : List LinkObj)
  deriving DecidableEq

/-- Python truthiness for the values above: empty string, `None`, `0` and
the empty list are falsy; a `time.struct_time` is always truthy. -/
def pyTruthy : PyVal → Bool
  | .str s => s ≠ ""
  | .pyNone => false
  | .int n => n ≠ 0
  | .timeStruct _ => true
  | .linkList ls => ls ≠ []

/-- `str(v)` as used inside the filename f-string (main.py lines 257-260);
in every reachable state the value there is a string or `None`. -/
def pyStr : PyVal → String
  | .str s => s
  | .pyNone => "None"
  | .int n => toString n
  | .timeStruct t =>
      "time.struct_time(tm_year=" ++ toString t.year ++ ", tm_mon=" ++
      toString t.month ++ ", tm_mday=" ++ toString t.day ++ ")"
  | .linkList _ => "[...]"

/-- An ordered Python dict with string keys. -/
abbrev PyDict := List (String × PyVal)

/-- `d.get(k, None)` / `d[k]` lookup. -/
def dictGet (d : PyDict) (k : String) : Option PyVal :=
  (d.find? (fun p => p.1 == k)).map (fun p => p.2)

/-- `d[k] = v`: replace in place when the key exists, append otherwise. -/
def dictSet (d : PyDict) (k : String) (v : PyVal) : PyDict :=
  if d.any (fun p => p.1 == k) then
    d.map (fun p => if p.1 == k then (k, v) else p)
  else d ++ [(k, v)]

/-- `d.pop(k, None)`. -/
def dictPop (d : PyDict) (k : String) : PyDict :=
  d.filter (fun p => p.1 ≠ k)

/-- A parsed XML element as produced by `xml.etree.ElementTree`: tag,
attribute dictionary, child elements in document order. -/
inductive XmlElem where
  | mk (tag : String) (attrib : List (String × String))
       (children : List XmlElem)

/-- The element's tag. -/
def XmlElem.tag : XmlElem → String
  | .mk t _ _ => t

/-- The element's attribute list. -/
def XmlElem.attrib : XmlElem → List (String × String)
  | .mk _ a _ => a

/-- The element's children, in document order. -/
def XmlElem.children : XmlElem → List XmlElem
  | .mk _ _ c => c

/-- `elem.attrib.get(key, None)`. -/
def XmlElem.get (e : XmlElem) (k : String) : Option String :=
  (e.attrib.find? (fun p => p.1 == k)).map (fun p => p.2)

/-- `xml_root.findall("*/outline/*[@type='rss']")` (main.py line 137):
for each child of the root, for each of its children whose tag is
`outline`, every child of that outline carrying the attribute
`type="rss"`; document order. -/
def findRssOutlines (root : XmlElem) : List XmlElem :=
  root.children.flatMap (fun c =>
    (c.children.filter (fun o => o.tag == "outline")).flatMap (fun o =>
      o.children.filter (fun g => g.get "type" == some "rss")))

/-- `podqueue.parse_opml` (main.py lines 128-140), applied to the parsed
XML root: collect `xmlUrl` of every element matched by the `findall`, kept
only when present and truthy (non-empty). -/
def parse_opml (root : XmlElem) : List String :=
  (findRssOutlines root).filterMap (fun feed =>
    match feed.get "xmlUrl" with
    | some u => if u = "" then Option.none else some u
    | Option.none => Option.none)

/-- Content of a file on disk: text records are kept as the ordered
key-value dict that `json.dumps` serialises; downloaded assets are raw
bytes. -/
inductive FileData where
  | json (d : PyDict)
  | bytes (b : List Nat)
  deriving DecidableEq

/-- The observable world: files written (path, content, in creation
order), directories created, and the log of outgoing HTTP GET requests in
order. -/
structure World where
  fs : List (String × FileData)
  dirs : List String
  reqs : List String
  deriving DecidableEq

/-- The world before the run: empty destination, nothing requested. -/
def emptyWorld : World := ⟨[], [], []⟩

/-- `os.path.exists`. -/
def fsExists (fs : List (String × FileData)) (p : String) : Bool :=
  fs.any (fun e => e.1 == p)

/-- `open(p, 'w')` + write: overwrite in place or create. -/
def fsWrite (fs : List (String × FileData)) (p : String) (d : FileData) :
    List (String × FileData) :=
  if fs.any (fun e => e.1 == p) then
    fs.map (fun e => if e.1 == p then (p, d) else e)
  else fs ++ [(p, d)]

/-- `os.makedirs` guarded by `os.path.isdir` (creation of intermediate
parents is not tracked separately). -/
def mkdirIfMissing (w : World) (d : String) : World :=
  if w.dirs.contains d then w else { w with dirs := w.dirs ++ [d] }

/-- Outcome of a `requests.get`: a transport-level exception from the call
itself, a response whose status makes `raise_for_status` raise
`HTTPError`, or a successful response body. -/
inductive HttpResp where
  | ok (body : List Nat)
  | httpError
  | transportError

/-- `content.feed` of a feedparser result: the feed-level fields the
program reads. `image` is the `href` of the image structure when one is
present; `categories` is modelled opaquely as a string since the program
never inspects it. -/
structure ParsedFeedFeed where
  title : Option String
  link : Option String
  description : Option String
  published : Option String
  image : Option String
  categories : Option String

/-- A feed entry as exposed by feedparser, restricted to the fields in
`EPISODE_FIELDS` that the program reads via `.get(field, None)`. -/
structure RawEpisode where
  title : Option String
  link : Option String
  description : Option String
  published_parsed : Option TimeStruct
  links : Option (List LinkObj)

/-- A feedparser parse result: the `bozo` flag (also set by feedparser on
network failures, which it reports instead of raising), the feed-level
dict, and the entries. -/
structure ParsedFeed where
  bozo : Bool
  feed : ParsedFeedFeed
  entries : List RawEpisode

/-- `Option String` to the Python value `.get` returns. -/
def optPy : Option String → PyVal
  | some s => .str s
  | Option.none => .pyNone

/-- `self.FEED_FIELDS` (main.py line 30). -/
def FEED_FIELDS : List String :=
  ["title", "link", "description", "published", "image", "categories"]

/-- `self.EPISODE_FIELDS` (main.py line 31). -/
def EPISODE_FIELDS : List String :=
  ["title", "link", "description", "published_parsed", "links"]

/-- `content.feed.get(field, None)` for the string-valued fields. -/
def ParsedFeedFeed.get (f : ParsedFeedFeed) (field : String) : PyVal :=
  if field = "title" then optPy f.title
  else if field = "link" then optPy f.link
  else if field = "description" then optPy f.description
  else if field = "published" then optPy f.published
  else if field = "categories" then optPy f.categories
  else .pyNone

/-- The value stored for one field of the feed metadata dict
(main.py lines 190-198): `image` is special-cased to
`content.feed.image.href` when an image structure is present. -/
def feedFieldValue (f : ParsedFeedFeed) (field : String) : PyVal :=
  if field = "image" then
    match f.image with
    | some href => .str href
    | Option.none => .pyNone
  else f.get field

/-- `episode.get(field, None)` (main.py line 238). -/
def RawEpisode.get (e : RawEpisode) (field : String) : PyVal :=
  if field = "title" then optPy e.title
  else if field = "link" then optPy e.link
  else if field = "description" then optPy e.description
  else if field = "published_parsed" then
    match e.published_parsed with
    | some t => .timeStruct t
    | Option.none => .pyNone
  else if field = "links" then
    match e.links with
    | some ls => .linkList ls
    | Option.none => .pyNone
  else .pyNone

/-- The episode metadata dict right after the field-extraction loop
(main.py lines 236-238). -/
def initEpisodeMeta (e : RawEpisode) : PyDict :=
  EPISODE_FIELDS.map (fun field => (field, e.get field))

/-- The loop of main.py lines 247-250: href of the first link object whose
`type` contains the substring `audio`. -/
def findAudio : List LinkObj → Option String
  | [] => Option.none
  | l :: ls => if strContains l.type "audio" then some l.href else findAudio ls

/-- main.py lines 241-243: when `published_parsed` is truthy, replace the
raw time struct in place with its `time.strftime` rendering; `strftime`
on a value that is not a time struct would raise `TypeError`. -/
def transformPublished (md : PyDict) : Except String PyDict :=
  match dictGet md "published_parsed" with
  | some v =>
      if pyTruthy v then
        match v with
        | .timeStruct t =>
            .ok (dictSet md "published_parsed" (.str (strftimeYMD t)))
        | _ => .error "TypeError"
      else .ok md
  | Option.none => .ok md

/-- main.py lines 246-253: when `links` is truthy, point `link` at the
first audio enclosure's href (if any) and pop the `links` key; iterating
a non-list would raise `TypeError`. -/
def transformLinks (md : PyDict) : Except String PyDict :=
  match dictGet md "links" with
  | some v =>
      if pyTruthy v then
        match v with
        | .linkList ls =>
            let md1 := match findAudio ls with
                       | some href => dictSet md "link" (.str href)
                       | Option.none => md
            .ok (dictPop md1 "links")
        | _ => .error "TypeError"
      else .ok md
  | Option.none => .ok md

/-- The two in-place rewrites of the episode metadata dict, in program
order. -/
def episodeTransform (e : RawEpisode) : Except String PyDict := do
  let md ← transformPublished (initEpisodeMeta e)
  transformLinks md

/-- main.py lines 256-263: derive the normalised metadata and audio
filenames. `None.split` raises `AttributeError`; the `[...]` dict lookups
raise `KeyError` when the key is missing. -/
def episodeFilenames (md : PyDict) (directory : String) :
    Except String (String × String) :=
  match dictGet md "title" with
  | some (.str t) =>
      let episode_title := joinUnderscore t
      match dictGet md "published_parsed" with
      | some pv =>
          let base := pathJoin directory "episodes"
          let stem := pyStr pv ++ "_" ++ episode_title
          .ok (ascii_normalise (pathJoin base (stem ++ ".json")),
               ascii_normalise (pathJoin base (stem ++ ".mp3")))
      | Option.none => .error "KeyError"
  | some _ => .error "AttributeError"
  | Option.none => .error "KeyError"

/-- `podqueue.process_feed_episode` (main.py lines 234-292). The error
side carries the exception's name and the world at the moment it is
raised; no caller catches these, so they abort the whole run. Note the
source's slip: when the resolved `link` is falsy no `requests.get` runs,
but `audio.raise_for_status()` is still evaluated and raises
`UnboundLocalError` (only `HTTPError` is caught there); likewise a
transport-level exception from `requests.get` itself is not caught. -/
def process_feed_episode (http : String → HttpResp) (episode : RawEpisode)
    (directory : String) (w : World) : Except (String × World) World :=
  match episodeTransform episode with
  | .error s => .error (s, w)
  | .ok md =>
    match episodeFilenames md directory with
    | .error s => .error (s, w)
    | .ok (meta_fn, audio_fn) =>
      if fsExists w.fs meta_fn && fsExists w.fs audio_fn then
        .ok w
      else
        let w1 : World := { w with fs := fsWrite w.fs meta_fn (.json md) }
        match dictGet md "link" with
        | Option.none => .error ("KeyError", w1)
        | some lv =>
            if pyTruthy lv then
              match lv with
              | .str url =>
                  let w2 : World := { w1 with reqs := w1.reqs ++ [url] }
                  match http url with
                  | .transportError => .error ("TransportError", w2)
                  | .httpError => .ok w2
                  | .ok body =>
                      .ok { w2 with fs := fsWrite w2.fs audio_fn (.bytes body) }
              | _ => .error ("TypeError", w1)
            else .error ("UnboundLocalError", w1)

/-- `podqueue.get_feed_image` (main.py lines 211-231): GET the image URL;
a transport exception propagates (uncaught); a bad status is caught and
only skips the image; on success the image is written next to the feed
record with the URL's own extension. -/
def get_feed_image (http : String → HttpResp) (image_url directory : String)
    (w : World) : Except (String × World) World :=
  let w1 : World := { w with reqs := w.reqs ++ [image_url] }
  match http image_url with
  | .transportError => .error ("TransportError", w1)
  | .httpError => .ok w1
  | .ok body =>
      let image_filename := ascii_normalise
        (pathJoin directory (basename directory ++ splitextExt image_url))
      .ok { w1 with fs := fsWrite w1.fs image_filename (.bytes body) }

/-- `podqueue.process_feed_metadata` (main.py lines 185-208): build the
feed metadata dict over `FEED_FIELDS` (image special-cased to its href),
append the derived `episode_count`, and unconditionally write it to
`<directory>/<basename>.json` (normalised). -/
def process_feed_metadata (content : ParsedFeed) (directory : String)
    (w : World) : PyDict × World :=
  let fm : PyDict :=
    (FEED_FIELDS.map (fun field => (field, feedFieldValue content.feed field)))
    ++ [("episode_count", .int content.entries.length)]
  let metadata_filename := ascii_normalise
    (pathJoin directory (basename directory ++ ".json"))
  (fm, { w with fs := fsWrite w.fs metadata_filename (.json fm) })

/-- The episode loop of main.py lines 179-180; any uncaught exception in
an episode aborts the run. -/
def processEpisodes (http : String → HttpResp) (directory : String) :
    List RawEpisode → World → Except (String × World) World
  | [], w => .ok w
  | e :: rest, w => do
      let w1 ← process_feed_episode http e directory w
      processEpisodes http directory rest w1

/-- `podqueue.get_feeds` (main.py lines 143-182): for each feed URL,
parse it; a bozo (ill-formed or unreachable) feed is skipped with a
warning; otherwise create the feed's directories, write the feed
metadata record, fetch the image when one is listed, and process every
entry. `content.feed.title` on a feed without a title raises
`AttributeError`. -/
def get_feeds (parse : String → ParsedFeed) (http : String → HttpResp)
    (dest : String) : List String → World → Except (String × World) World
  | [], w => .ok w
  | feed :: rest, w =>
      let content := parse feed
      if content.bozo then get_feeds parse http dest rest w
      else
        match content.feed.title with
        | Option.none => .error ("AttributeError", w)
        | some title => do
            let feed_dir_name := ascii_normalise (joinUnderscore title)
            let directory := pathJoin dest feed_dir_name
            let w1 := mkdirIfMissing w directory
            let w2 := mkdirIfMissing w1 (pathJoin directory "episodes")
            let (fm, w3) := process_feed_metadata content directory w2
            let w4 ← (match dictGet fm "image" with
              | some v =>
                  if pyTruthy v then
                    match v with
                    | .str u => get_feed_image http u directory w3
                    | _ => .error ("TypeError", w3)
                  else .ok w3
              | Option.none => .ok w3)
            let w5 ← processEpisodes http directory content.entries w4
            get_feeds parse http dest rest w5

/-- `podqueue.entry` after configuration (main.py lines 297-305): extract
the feed URLs from the parsed OPML root, then run `get_feeds` over them. -/
def podqueue_run (parse : String → ParsedFeed) (http : String → HttpResp)
    (dest : String) (opml_root : XmlElem) (w : World) :
    Except (String × World) World :=
  get_feeds parse http dest (parse_opml opml_root) w

/-! ### Spec-side definitions and concrete scenario inputs -/

/-- The spec's normalisation predicate, from its words: the string matches
the regular expression `[A-Za-z0-9_./\-]+` (with the backslash also
allowed), i.e. it is non-empty and every character is in the allowed
set. -/
def matchesAllowedPlus (s : String) : Prop :=
  s ≠ "" ∧ s.data.all allowedChar = true

instance (s : String) : Decidable (matchesAllowedPlus s) := by
  unfold matchesAllowedPlus; infer_instance

/-- The end-to-end scenario's single feed entry: titled "Ep 1", published
2024-01-02, one audio enclosure. -/
def epMyShow : RawEpisode :=
  ⟨some "Ep 1", Option.none, Option.none, some ⟨2024, 1, 2⟩,
   some [⟨"audio/mpeg", "http://example/ep1.mp3"⟩]⟩

/-- The end-to-end scenario's feed: well-formed, titled "My Show", one
entry, no image. -/
def feedMyShow : ParsedFeed :=
  ⟨false,
   ⟨some "My Show", Option.none, Option.none, Option.none, Option.none,
    Option.none⟩,
   [epMyShow]⟩

/-- A parse result with the bozo flag set (ill-formed or unreachable
source). -/
def bozoFeed : ParsedFeed :=
  ⟨true,
   ⟨Option.none, Option.none, Option.none, Option.none, Option.none,
    Option.none⟩,
   []⟩

/-- Feed-parser oracle of the scenarios: only the scenario feed URL
parses cleanly. -/
def parseOracle : String → ParsedFeed :=
  fun url => if url = "http://example/feed.xml" then feedMyShow else bozoFeed

/-- The bytes served for the scenario's episode audio. -/
def mp3Bytes : List Nat := [73, 68, 51, 4, 0]

/-- HTTP oracle of the end-to-end scenario: the audio URL succeeds with
`mp3Bytes`, everything else yields a non-success status. -/
def httpOracle : String → HttpResp :=
  fun url => if url = "http://example/ep1.mp3" then .ok mp3Bytes else .httpError

/-- HTTP oracle answering every GET with a non-success status. -/
def httpDeny : String → HttpResp := fun _ => .httpError

/-- HTTP oracle for which every GET raises a transport-level exception. -/
def httpTransportFail : String → HttpResp := fun _ => .transportError

/-- OPML document whose single `type="rss"` outline is nested inside a
grouping outline under the body (the layout the program's `findall`
pattern matches). -/
def opmlNested : XmlElem :=
  .mk "opml" []
    [.mk "head" [] [],
     .mk "body" []
       [.mk "outline" [("text", "subscriptions")]
         [.mk "outline"
           [("type", "rss"), ("xmlUrl", "http://example/feed.xml")] []]]]

/-- OPML document whose single `type="rss"` outline is a direct child of
the body (the canonical flat OPML layout). -/
def opmlDirect : XmlElem :=
  .mk "opml" []
    [.mk "head" [] [],
     .mk "body" []
       [.mk "outline"
         [("type", "rss"), ("xmlUrl", "http://example/feed.xml")] []]]

/-- An entry with no enclosures and no entry-level link: its resolved
`link` stays `None`. -/
def epNoLink : RawEpisode :=
  ⟨some "Ep 2", Option.none, some "desc", some ⟨2024, 1, 3⟩, Option.none⟩

/-- The enclosure collection of the spec's link-resolution example: an
image enclosure followed by an audio enclosure with href "X". -/
def lsEnclosures : List LinkObj :=
  [⟨"image/png", "http://example/cover.png"⟩, ⟨"audio/mpeg", "X"⟩]

/-- An entry carrying `lsEnclosures` and an entry-level link. -/
def epEnclosures : RawEpisode :=
  ⟨some "Ep 3", some "http://example/page", Option.none,
   some ⟨2024, 1, 4⟩, some lsEnclosures⟩

/-- The episode metadata dict produced for `epMyShow`. -/
def mdMyShow : PyDict :=
  [("title", .str "Ep 1"), ("link", .str "http://example/ep1.mp3"),
   ("description", .pyNone), ("published_parsed", .str "2024-01-02")]

/-- The feed metadata dict produced for `feedMyShow`. -/
def fmMyShow : PyDict :=
  [("title", .str "My Show"), ("link", .pyNone), ("description", .pyNone),
   ("published", .pyNone), ("image", .pyNone), ("categories", .pyNone),
   ("episode_count", .int 1)]

/-- A destination on which both files derived for `epMyShow` under
`dest/My_Show` already exist. -/
def wBothExist : World :=
  ⟨[("dest/My_Show/episodes/2024-01-02_Ep_1.json", .json mdMyShow),
    ("dest/My_Show/episodes/2024-01-02_Ep_1.mp3", .bytes mp3Bytes)],
   ["dest/My_Show", "dest/My_Show/episodes"], []⟩

/-- The episode metadata dict produced for `epEnclosures`. -/
def mdEnclosures : PyDict :=
  [("title", .str "Ep 3"), ("link", .str "X"), ("description", .pyNone),
   ("published_parsed", .str "2024-01-04")]

/-- The amended claim's keep-step, written from the spec's words: for an
element carrying `type="rss"`, read `xmlUrl` and append it when present
and non-empty; otherwise contribute nothing. -/
def specKeepUrl (g : XmlElem) : List String :=
  if g.get "type" = some "rss" then
    match g.get "xmlUrl" with
    | some u => if u = "" then [] else [u]
    | Option.none => []
  else []

/-- The amended claim's ordered extractor, written from its words,
independently of `parse_opml`: in document order, for every child of the
root, for every child `outline` of it, the kept `xmlUrl` attributes of
its children carrying `type="rss"`. -/
def specOrderedRssUrls (root : XmlElem) : List String :=
  root.children.flatMap (fun c =>
    c.children.flatMap (fun o =>
      if o.tag = "outline" then o.children.flatMap specKeepUrl else []))

/-! ### Normaliser lemmas (claims C6, C10) -/

theorem normChar_eq_self_iff (c : Char) :
    normChar c = c ↔ allowedChar c = true := by
  constructor
  · intro h
    by_contra hna
    have h2 : normChar c = '_' := by simp [normChar, hna]
    rw [h] at h2
    rw [h2] at hna
    exact hna (by decide)
  · intro h
    simp [normChar, h]

theorem map_normChar_eq_self (l : List Char) :
    l.map normChar = l ↔ l.all allowedChar = true := by
  induction l with
  | nil => simp
  | cons c cs ih =>
    simp only [List.map_cons, List.all_cons, List.cons.injEq,
      Bool.and_eq_true, ih]
    exact and_congr (normChar_eq_self_iff c) Iff.rfl

theorem ascii_normalise_eq_self_iff (s : String) :
    ascii_normalise s = s ↔ s.data.all allowedChar = true := by
  rw [ascii_normalise]
  constructor
  · intro h
    have h2 : (String.mk (s.data.map normChar)).data = s.data := by rw [h]
    exact (map_normChar_eq_self s.data).1 h2
  · intro h
    have h2 : s.data.map normChar = s.data :=
      (map_normChar_eq_self s.data).2 h
    calc String.mk (s.data.map normChar) = String.mk s.data := by rw [h2]
      _ = s := rfl

theorem ascii_normalise_all_allowed (s : String) :
    (ascii_normalise s).data.all allowedChar = true := by
  rw [ascii_normalise]
  show (s.data.map normChar).all allowedChar = true
  rw [List.all_eq_true]
  intro c hc
  rcases List.mem_map.1 hc with ⟨a, _, rfl⟩
  by_cases h : allowedChar a
  · simp [normChar, h]
  · simp only [normChar, h, if_false, Bool.false_eq_true]
    decide

/-- C6: `ascii_normalise` (total and deterministic as a function) leaves a
string unchanged iff every one of its characters is in the allowed set
`[A-Za-z0-9_./\-]` — i.e. iff the string matches `[A-Za-z0-9_./\-]*`.
The claim's `+` (non-emptiness) requirement is dropped: the empty string
is also a fixed point. -/
theorem C6_normalise_fixed_iff_allowed (s : String) :
    ascii_normalise s = s ↔ s.data.all allowedChar = true :=
  ascii_normalise_eq_self_iff s

/-- C6 counterexample: the empty string is left unchanged by
`ascii_normalise` but does not match the regular expression
`[A-Za-z0-9_./\-]+` of the claim, so "normalize(s) = s iff s matches
`[A-Za-z0-9_./\-]+`" fails at s = "". -/
theorem C6_cex_empty_string :
    ascii_normalise "" = "" ∧ ¬ matchesAllowedPlus "" := by
  refine ⟨rfl, fun h => ?_⟩
  exact h.1 rfl

/-- C10: the normaliser is idempotent and its output only contains
characters of the allowed set `[A-Za-z0-9_./\-]`. -/
theorem C10_normalise_idempotent_and_closed (s : String) :
    ascii_normalise (ascii_normalise s) = ascii_normalise s ∧
    (ascii_normalise s).data.all allowedChar = true :=
  ⟨(ascii_normalise_eq_self_iff (ascii_normalise s)).2
     (ascii_normalise_all_allowed s),
   ascii_normalise_all_allowed s⟩

/-! ### OPML extraction (claims C1, C2) -/

theorem keepUrl_eq_some (g : XmlElem) (u : String) :
    (match g.get "xmlUrl" with
     | some v => if v = "" then Option.none else some v
     | Option.none => Option.none) = some u ↔
    g.get "xmlUrl" = some u ∧ u ≠ "" := by
  cases h : g.get "xmlUrl" with
  | none => simp [h]
  | some v =>
    by_cases hv : v = ""
    · subst hv
      simp [h]
      exact fun h2 => h2.symm
    · simp [h, if_neg hv]
      rintro rfl
      exact hv

theorem parse_opml_mem_iff (root : XmlElem) (u : String) :
    u ∈ parse_opml root ↔
      ∃ c ∈ root.children, ∃ o ∈ c.children, o.tag = "outline" ∧
        ∃ g ∈ o.children, g.get "type" = some "rss" ∧
          g.get "xmlUrl" = some u ∧ u ≠ "" := by
  unfold parse_opml findRssOutlines
  rw [List.mem_filterMap]
  constructor
  · rintro ⟨g, hg, hkeep⟩
    rw [keepUrl_eq_some] at hkeep
    rcases List.mem_flatMap.1 hg with ⟨c, hc, hg2⟩
    rcases List.mem_flatMap.1 hg2 with ⟨o, ho, hg3⟩
    rcases List.mem_filter.1 ho with ⟨ho1, ho2⟩
    rcases List.mem_filter.1 hg3 with ⟨hg4, hg5⟩
    exact ⟨c, hc, o, ho1, by simpa using ho2, g, hg4, by simpa using hg5,
      hkeep.1, hkeep.2⟩
  · rintro ⟨c, hc, o, ho, htag, g, hg, htype, hurl, hne⟩
    refine ⟨g, ?_, (keepUrl_eq_some g u).2 ⟨hurl, hne⟩⟩
    exact List.mem_flatMap.2 ⟨c, hc, List.mem_flatMap.2
      ⟨o, List.mem_filter.2 ⟨ho, by simpa using htag⟩,
       List.mem_filter.2 ⟨hg, by simpa using htype⟩⟩⟩

theorem filterMap_flatMap_eq {α β γ : Type} (l : List α) (f : α → List β)
    (g : β → Option γ) :
    (l.flatMap f).filterMap g = l.flatMap (fun a => (f a).filterMap g) := by
  induction l with
  | nil => rfl
  | cons a as ih => simp [List.flatMap_cons, List.filterMap_append, ih]

theorem flatMap_filter_eq {α β : Type} (p : α → Bool) (f : α → List β)
    (l : List α) :
    (l.filter p).flatMap f = l.flatMap (fun a => if p a then f a else []) := by
  induction l with
  | nil => rfl
  | cons a as ih =>
    by_cases h : p a <;> simp [List.filter_cons, h, ih]

theorem filterMap_filter_eq {α γ : Type} (p : α → Bool) (g : α → Option γ)
    (l : List α) :
    (l.filter p).filterMap g =
      l.flatMap (fun a => if p a then (g a).toList else []) := by
  induction l with
  | nil => rfl
  | cons a as ih =>
    by_cases h : p a
    · cases hg : g a <;> simp [List.filter_cons, h, hg, ih]
    · simp [List.filter_cons, h, ih]

theorem specKeepUrl_eq (g : XmlElem) :
    (if g.get "type" = some "rss" then
      ((match g.get "xmlUrl" with
        | some v => if v = "" then Option.none else some v
        | Option.none => Option.none) : Option String).toList
     else []) = specKeepUrl g := by
  unfold specKeepUrl
  by_cases ht : g.get "type" = some "rss"
  · simp only [ht, if_true]
    cases hu : g.get "xmlUrl" with
    | none => simp
    | some v => by_cases hv : v = "" <;> simp [hv]
  · simp [ht]

theorem parse_opml_eq_spec (root : XmlElem) :
    parse_opml root = specOrderedRssUrls root := by
  unfold parse_opml findRssOutlines specOrderedRssUrls
  simp only [filterMap_flatMap_eq, flatMap_filter_eq, apply_ite,
    List.filterMap_nil, filterMap_filter_eq, beq_iff_eq]
  refine congrArg _ (funext fun c => ?_)
  refine congrArg _ (funext fun o => ?_)
  by_cases h : o.tag = "outline"
  · simp only [h, if_true]
    refine congrArg _ (funext fun g => ?_)
    exact specKeepUrl_eq g
  · simp [h]

/-- C2 (amended): the extractor's output is exactly — as an ordered
sequence, duplicates included — the `specOrderedRssUrls` of the document,
the spec-worded collection (in document order) of the non-empty `xmlUrl`
attributes of the elements carrying `type="rss"` that are children of an
`outline` element which is itself a child of a child of the root; the
second conjunct characterises membership declaratively. In particular a
`type="rss"` outline that is a direct child of the body is not
included. -/
theorem C2_extractor_ordered (root : XmlElem) :
    parse_opml root = specOrderedRssUrls root ∧
    (∀ u : String, u ∈ parse_opml root ↔
      ∃ c ∈ root.children, ∃ o ∈ c.children, o.tag = "outline" ∧
        ∃ g ∈ o.children, g.get "type" = some "rss" ∧
          g.get "xmlUrl" = some u ∧ u ≠ "") :=
  ⟨parse_opml_eq_spec root, fun u => parse_opml_mem_iff root u⟩

/-- C2 counterexample: in `opmlDirect` the body's direct child is an
`outline` element with `type="rss"` and a non-empty `xmlUrl`, yet
`parse_opml` returns the empty sequence — the direct child is not
included, contradicting the claim. -/
theorem C2_cex_direct_child :
    (opmlDirect.children.map (fun c => (c.tag,
       c.children.map (fun o => (o.tag, o.get "type", o.get "xmlUrl"))))
      = [("head", []),
         ("body", [("outline", some "rss", some "http://example/feed.xml")])]) ∧
    parse_opml opmlDirect = [] := by
  exact ⟨rfl, rfl⟩

/-! ### Link resolution (claim C7) -/

theorem findAudio_some_spec (ls : List LinkObj) (href : String)
    (h : findAudio ls = some href) :
    ∃ pre l post, ls = pre ++ l :: post ∧ strContains l.type "audio" = true ∧
      l.href = href ∧ ∀ x ∈ pre, strContains x.type "audio" = false := by
  induction ls with
  | nil => simp [findAudio] at h
  | cons a as ih =>
    simp only [findAudio] at h
    by_cases ha : strContains a.type "audio"
    · rw [if_pos ha] at h
      exact ⟨[], a, as, rfl, ha, Option.some.inj h, by simp⟩
    · rw [if_neg ha] at h
      rcases ih h with ⟨pre, l, post, heq, hl, hh, hpre⟩
      refine ⟨a :: pre, l, post, by rw [heq]; rfl, hl, hh, ?_⟩
      intro x hx
      rcases List.mem_cons.1 hx with hx1 | hx2
      · rw [hx1]; simpa using ha
      · exact hpre x hx2

theorem findAudio_none_spec (ls : List LinkObj)
    (h : findAudio ls = Option.none) :
    ∀ x ∈ ls, strContains x.type "audio" = false := by
  induction ls with
  | nil => simp
  | cons a as ih =>
    simp only [findAudio] at h
    by_cases ha : strContains a.type "audio"
    · rw [if_pos ha] at h
      exact absurd h (by simp)
    · rw [if_neg ha] at h
      intro x hx
      rcases List.mem_cons.1 hx with hx1 | hx2
      · rw [hx1]; simpa using ha
      · exact ih h x hx2

theorem episodeTransform_eval (t lk d : Option String) (pp : Option TimeStruct)
    (ls : List LinkObj) (hne : ls ≠ []) :
    episodeTransform ⟨t, lk, d, pp, some ls⟩ =
      .ok [("title", optPy t),
           ("link", match findAudio ls with
                    | some href => .str href
                    | Option.none => optPy lk),
           ("description", optPy d),
           ("published_parsed", match pp with
                                | some ts => .str (strftimeYMD ts)
                                | Option.none => .pyNone)] := by
  cases pp <;> cases hfa : findAudio ls <;>
    simp [episodeTransform, initEpisodeMeta, EPISODE_FIELDS, RawEpisode.get,
      transformPublished, transformLinks, dictGet, dictSet, dictPop, optPy,
      pyTruthy, hne, hfa, List.find?, List.filter, Bind.bind, Except.bind]

/-- C7: for an entry whose enclosure collection is non-empty, the
projected `link` is the href of the first enclosure whose type marker
contains the substring "audio" (replacing any entry-level link); when no
enclosure type contains "audio", the entry-level link value is kept; the
`links` collection itself is dropped. The last two conjuncts pin down
`findAudio` as exactly that first-match scan. -/
theorem C7_link_resolution (e : RawEpisode) (ls : List LinkObj) (md : PyDict)
    (hls : e.links = some ls) (hne : ls ≠ [])
    (h : episodeTransform e = .ok md) :
    (dictGet md "link" = some (match findAudio ls with
        | some href => PyVal.str href
        | Option.none => optPy e.link)) ∧
    dictGet md "links" = Option.none ∧
    (∀ href, findAudio ls = some href →
      ∃ pre l post, ls = pre ++ l :: post ∧ strContains l.type "audio" = true ∧
        l.href = href ∧ ∀ x ∈ pre, strContains x.type "audio" = false) ∧
    (findAudio ls = Option.none → ∀ x ∈ ls, strContains x.type "audio" = false)
    := by
  obtain ⟨t, lk, d, pp, lnks⟩ := e
  replace hls : lnks = some ls := hls
  subst hls
  rw [episodeTransform_eval t lk d pp ls hne] at h
  have hmd : md = _ := (Except.ok.inj h).symm
  subst hmd
  refine ⟨?_, ?_, fun href hf => findAudio_some_spec ls href hf,
    findAudio_none_spec ls⟩
  · cases hfa : findAudio ls <;> simp [dictGet, List.find?, hfa]
  · simp [dictGet, List.find?]

/-- C7 witness: the spec's own example — enclosures
`[{type:"image/png",...}, {type:"audio/mpeg", href:"X"}]` project to
`link = "X"` even though the entry carries its own entry-level link. -/
theorem C7_witness :
    episodeTransform epEnclosures = Except.ok mdEnclosures ∧
    dictGet mdEnclosures "link" = some (PyVal.str "X") :=
  ⟨rfl, (C7_link_resolution epEnclosures lsEnclosures mdEnclosures rfl
      (by decide) rfl).1⟩

/-! ### Episode record keys (claims C9, C3) -/

theorem episodeTransform_eval_nolinks (t lk d : Option String)
    (pp : Option TimeStruct) (lnks : Option (List LinkObj))
    (hl : lnks = Option.none ∨ lnks = some []) :
    episodeTransform ⟨t, lk, d, pp, lnks⟩ =
      .ok [("title", optPy t), ("link", optPy lk), ("description", optPy d),
           ("published_parsed", match pp with
                                | some ts => .str (strftimeYMD ts)
                                | Option.none => .pyNone),
           ("links", match lnks with
                     | some ls => .linkList ls
                     | Option.none => .pyNone)] := by
  rcases hl with rfl | rfl <;> cases pp <;>
    simp [episodeTransform, initEpisodeMeta, EPISODE_FIELDS, RawEpisode.get,
      transformPublished, transformLinks, dictGet, dictSet, dictPop, optPy,
      pyTruthy, List.find?, Bind.bind, Except.bind]

/-- C9 (amended): the episode record written to disk has exactly the keys
`title, link, description, published_parsed` (in that order) when the
entry's enclosure collection is truthy (non-empty); when the collection is
absent or empty, the unpopped fifth key `links` is also present. The key
is `published_parsed`, not `published` as the claim states. -/
theorem C9_episode_record_keys (e : RawEpisode) (md : PyDict)
    (h : episodeTransform e = .ok md) :
    md.map Prod.fst =
      (if pyTruthy (e.get "links") then
        ["title", "link", "description", "published_parsed"]
      else EPISODE_FIELDS) := by
  obtain ⟨t, lk, d, pp, lnks⟩ := e
  cases lnks with
  | none =>
    rw [episodeTransform_eval_nolinks t lk d pp Option.none (Or.inl rfl)] at h
    have hmd : md = _ := (Except.ok.inj h).symm
    subst hmd
    simp [RawEpisode.get, pyTruthy, EPISODE_FIELDS]
  | some ls =>
    cases ls with
    | nil =>
      rw [episodeTransform_eval_nolinks t lk d pp (some []) (Or.inr rfl)] at h
      have hmd : md = _ := (Except.ok.inj h).symm
      subst hmd
      simp [RawEpisode.get, pyTruthy, EPISODE_FIELDS]
    | cons a as =>
      rw [episodeTransform_eval t lk d pp (a :: as) (by simp)] at h
      have hmd : md = _ := (Except.ok.inj h).symm
      subst hmd
      simp [RawEpisode.get, pyTruthy]

/-- C9 counterexample: for the scenario entry (non-empty enclosure
collection) the record written to
`dest/My_Show/episodes/2024-01-02_Ep_1.json` has keys
`title, link, description, published_parsed` — not
`title, link, description, published` as the claim states. -/
theorem C9_cex_published_parsed_key :
    process_feed_episode httpOracle epMyShow "dest/My_Show" emptyWorld =
      Except.ok ⟨[("dest/My_Show/episodes/2024-01-02_Ep_1.json",
                   .json mdMyShow),
                  ("dest/My_Show/episodes/2024-01-02_Ep_1.mp3",
                   .bytes mp3Bytes)],
                 [], ["http://example/ep1.mp3"]⟩ ∧
    mdMyShow.map Prod.fst = ["title", "link", "description",
      "published_parsed"] ∧
    mdMyShow.map Prod.fst ≠ ["title", "link", "description", "published"] :=
  ⟨rfl, rfl, by decide⟩

theorem C9_witness :
    episodeTransform epMyShow = Except.ok mdMyShow ∧
    mdMyShow.map Prod.fst =
      (if pyTruthy (epMyShow.get "links") then
        ["title", "link", "description", "published_parsed"]
      else EPISODE_FIELDS) :=
  ⟨rfl, C9_episode_record_keys epMyShow mdMyShow rfl⟩

/-- C3: an episode with no audio enclosure and no entry-level link, whose
files are not both on disk, has its metadata record written and no
download is attempted — but then `audio.raise_for_status()` is evaluated
with `audio` never assigned, raising `UnboundLocalError`, which no
handler catches: the run aborts instead of continuing with the next
episode. -/
theorem C3_no_link_unbound_local_error :
    process_feed_episode httpOracle epNoLink "dest/My_Show" emptyWorld =
      Except.error ("UnboundLocalError",
        ⟨[("dest/My_Show/episodes/2024-01-03_Ep_2.json",
           .json [("title", .str "Ep 2"), ("link", .pyNone),
                  ("description", .str "desc"),
                  ("published_parsed", .str "2024-01-03"),
                  ("links", .pyNone)])], [], []⟩) := rfl

/-! ### Skip rule and failure handling (claims C5, C4, C8) -/

/-- C5: when both derived files for an episode already exist, the episode
is skipped: the world (filesystem, directories, request log) is returned
unchanged — no HTTP request, no write. -/
theorem C5_skip_when_both_exist (http : String → HttpResp) (e : RawEpisode)
    (directory : String) (w : World) (md : PyDict) (mfn afn : String)
    (h1 : episodeTransform e = .ok md)
    (h2 : episodeFilenames md directory = .ok (mfn, afn))
    (h3 : fsExists w.fs mfn = true) (h4 : fsExists w.fs afn = true) :
    process_feed_episode http e directory w = .ok w := by
  simp [process_feed_episode, h1, h2, h3, h4]

theorem C5_witness :
    process_feed_episode httpOracle epMyShow "dest/My_Show" wBothExist =
      Except.ok wBothExist :=
  C5_skip_when_both_exist httpOracle epMyShow "dest/My_Show" wBothExist
    mdMyShow "dest/My_Show/episodes/2024-01-02_Ep_1.json"
    "dest/My_Show/episodes/2024-01-02_Ep_1.mp3" rfl rfl rfl rfl

/-- C4 (amended): a non-success HTTP *status* is non-fatal — for an
episode audio asset the metadata record is still written, the request is
logged, no audio file is created and processing returns successfully; for
a feed image the GET is logged and nothing is written, returning
successfully. (Transport-level exceptions, by contrast, abort the run:
see the counterexample.) -/
theorem C4_http_status_failure_nonfatal (http : String → HttpResp)
    (e : RawEpisode) (directory : String) (w : World) (md : PyDict)
    (mfn afn url : String)
    (h1 : episodeTransform e = .ok md)
    (h2 : episodeFilenames md directory = .ok (mfn, afn))
    (h3 : (fsExists w.fs mfn && fsExists w.fs afn) = false)
    (h4 : dictGet md "link" = some (.str url))
    (h5 : url ≠ "")
    (h6 : http url = .httpError) :
    process_feed_episode http e directory w =
      .ok ⟨fsWrite w.fs mfn (.json md), w.dirs, w.reqs ++ [url]⟩ ∧
    get_feed_image http url directory w =
      .ok ⟨w.fs, w.dirs, w.reqs ++ [url]⟩ := by
  constructor
  · simp [process_feed_episode, h1, h2, h3, h4, pyTruthy, h5, h6]
  · simp [get_feed_image, h6]

theorem C4_witness :
    process_feed_episode httpDeny epMyShow "dest/My_Show" emptyWorld =
      Except.ok ⟨[("dest/My_Show/episodes/2024-01-02_Ep_1.json",
                   .json mdMyShow)],
                 [], ["http://example/ep1.mp3"]⟩ ∧
    get_feed_image httpDeny "http://example/ep1.mp3" "dest/My_Show"
        emptyWorld =
      Except.ok ⟨[], [], ["http://example/ep1.mp3"]⟩ :=
  C4_http_status_failure_nonfatal httpDeny epMyShow "dest/My_Show"
    emptyWorld mdMyShow "dest/My_Show/episodes/2024-01-02_Ep_1.json"
    "dest/My_Show/episodes/2024-01-02_Ep_1.mp3" "http://example/ep1.mp3"
    rfl rfl rfl rfl (by decide) rfl

/-- C4 counterexample: a transport-level failure fetching the episode
audio is NOT caught — the run aborts with the uncaught exception (the
episode metadata had been written, but processing does not continue),
contradicting the claim that transport failures only skip the asset. -/
theorem C4_cex_transport_error_fatal :
    get_feeds parseOracle httpTransportFail "dest"
        ["http://example/feed.xml"] emptyWorld =
      Except.error ("TransportError",
        ⟨[("dest/My_Show/My_Show.json", .json fmMyShow),
          ("dest/My_Show/episodes/2024-01-02_Ep_1.json", .json mdMyShow)],
         ["dest/My_Show", "dest/My_Show/episodes"],
         ["http://example/ep1.mp3"]⟩) := rfl

/-- C8: a feed whose parse reports the bozo condition is skipped
entirely — processing the list with that feed at its head is literally
processing the remaining feeds: no file, directory or request is produced
for it, and the run continues. -/
theorem C8_bozo_feed_skipped (parse : String → ParsedFeed)
    (http : String → HttpResp) (dest feed : String) (rest : List String)
    (w : World) (h : (parse feed).bozo = true) :
    get_feeds parse http dest (feed :: rest) w =
    get_feeds parse http dest rest w := by
  simp [get_feeds, h]

theorem C8_witness :
    get_feeds parseOracle httpOracle "dest" ["http://example/bozo"]
        emptyWorld =
      get_feeds parseOracle httpOracle "dest" [] emptyWorld :=
  C8_bozo_feed_skipped parseOracle httpOracle "dest" "http://example/bozo"
    [] emptyWorld rfl

/-! ### End-to-end scenario (claim C1) -/

/-- C1 (amended): with the single `type="rss"` outline nested inside a
grouping outline under the body, the run on an empty destination produces
exactly the three files of the scenario: the feed record (with
`episode_count` 1), the episode record, and the audio file holding the
downloaded bytes; exactly one HTTP request is made. -/
theorem C1_end_to_end_nested :
    podqueue_run parseOracle httpOracle "dest" opmlNested emptyWorld =
      Except.ok ⟨[("dest/My_Show/My_Show.json", .json fmMyShow),
                  ("dest/My_Show/episodes/2024-01-02_Ep_1.json",
                   .json mdMyShow),
                  ("dest/My_Show/episodes/2024-01-02_Ep_1.mp3",
                   .bytes mp3Bytes)],
                 ["dest/My_Show", "dest/My_Show/episodes"],
                 ["http://example/ep1.mp3"]⟩ := rfl

/-- C1 counterexample: with the same remote content but the single
`type="rss"` outline a direct child of the body (the canonical OPML
layout, which satisfies the claim's hypothesis), the run produces NO
files at all — the extractor's `findall` pattern does not match a
direct child. -/
theorem C1_cex_direct_opml :
    (opmlDirect.children.map (fun c => (c.tag,
       c.children.map (fun o => (o.tag, o.get "type", o.get "xmlUrl"))))
      = [("head", []),
         ("body", [("outline", some "rss", some "http://example/feed.xml")])])
    ∧
    podqueue_run parseOracle httpOracle "dest" opmlDirect emptyWorld =
      Except.ok emptyWorld :=
  ⟨rfl, rfl⟩
